import Mathlib

/-!
Verification of `TransactionPayloadEvent` from
`src/binlog/events/transaction_payload_event.rs` (Epsio-Labs/rust_mysql_common).

Bytes are modelled as `List Nat` (each element a byte value), machine
integers as `Nat` with explicit bounds where they matter.  The
length-encoded-integer primitives, the tag/algorithm enumerations and the
binlog event-header length live outside `src/` and are modelled from the
spec, as noted on each definition.
-/

namespace TxPayload

/-- Modelled from the spec: `TransactionPayloadCompressionType`
(`crate::binlog::consts`, not under `src/`).  Spec §6: compression
algorithm identifiers are `0 = none`, `1 = a streaming general-purpose
compressor` (zstd); the enumeration is `{None, Zstd, …}`. -/
inductive TransactionPayloadCompressionType where
  | NONE
  | ZSTD
deriving DecidableEq

/-- Modelled from the spec: the wire identifier of each algorithm
(spec §6: `0 = none`, `1 = a streaming general-purpose compressor`). -/
def compressionTypeCode : TransactionPayloadCompressionType → Nat
  | .NONE => 0
  | .ZSTD => 1

/-- Modelled from the spec: `TransactionPayloadCompressionType::try_from`
(not under `src/`); unknown values are a decode error (here `none`). -/
def compressionTypeTryFrom (v : Nat) : Option TransactionPayloadCompressionType :=
  if v = 0 then some .NONE
  else if v = 1 then some .ZSTD
  else none

/-- Modelled from the spec: `TransactionPayloadFields`
(`crate::binlog::consts`, not under `src/`).  Spec §6: tag values are
`0 = terminator`, `1 = payload-size field`, `2 = compression-algorithm
field`, `3 = uncompressed-size field`. -/
inductive TransactionPayloadFields where
  | OTW_PAYLOAD_HEADER_END_MARK
  | OTW_PAYLOAD_SIZE_FIELD
  | OTW_PAYLOAD_COMPRESSION_TYPE_FIELD
  | OTW_PAYLOAD_UNCOMPRESSED_SIZE_FIELD
deriving DecidableEq

/-- Modelled from the spec: the wire value of each field tag (spec §6). -/
def fieldsCode : TransactionPayloadFields → Nat
  | .OTW_PAYLOAD_HEADER_END_MARK => 0
  | .OTW_PAYLOAD_SIZE_FIELD => 1
  | .OTW_PAYLOAD_COMPRESSION_TYPE_FIELD => 2
  | .OTW_PAYLOAD_UNCOMPRESSED_SIZE_FIELD => 3

/-- Modelled from the spec: `TransactionPayloadFields::try_from`
(not under `src/`); any other tag value is `Err` (here `none`). -/
def fieldsTryFrom (v : Nat) : Option TransactionPayloadFields :=
  if v = 0 then some .OTW_PAYLOAD_HEADER_END_MARK
  else if v = 1 then some .OTW_PAYLOAD_SIZE_FIELD
  else if v = 2 then some .OTW_PAYLOAD_COMPRESSION_TYPE_FIELD
  else if v = 3 then some .OTW_PAYLOAD_UNCOMPRESSED_SIZE_FIELD
  else none

/-- Modelled from the spec: the fallible length-encoded-integer reader
(`ReadMysqlExt::read_lenenc_int`, `crate::io`, not under `src/`).  The
spec treats it as a given varint reader; the encoding is MySQL's
length-encoded integer: a first byte below 251 is the value itself,
`0xfc`/`0xfd`/`0xfe` announce 2-, 3- and 8-byte little-endian values,
and `0xfb`/`0xff` (or running out of bytes) are decode errors. -/
def readLenencInt : List Nat → Option (Nat × List Nat)
  | [] => none
  | b :: rest =>
    if b < 251 then some (b, rest)
    else if b = 252 then
      match rest with
      | x0 :: x1 :: r => some (x0 + 256 * x1, r)
      | _ => none
    else if b = 253 then
      match rest with
      | x0 :: x1 :: x2 :: r => some (x0 + 256 * x1 + 256 ^ 2 * x2, r)
      | _ => none
    else if b = 254 then
      match rest with
      | x0 :: x1 :: x2 :: x3 :: x4 :: x5 :: x6 :: x7 :: r =>
        some (x0 + 256 * x1 + 256 ^ 2 * x2 + 256 ^ 3 * x3 + 256 ^ 4 * x4
                 + 256 ^ 5 * x5 + 256 ^ 6 * x6 + 256 ^ 7 * x7, r)
      | _ => none
    else none

/-- Modelled from the spec: the infallible length-encoded-integer eater
(`ParseBuf::eat_lenenc_int`, `crate::io`, not under `src/`), used by the
unknown-tag skip branch; on a malformed or truncated varint it yields 0
and leaves nothing behind. -/
def eatLenencInt (buf : List Nat) : Nat × List Nat :=
  match readLenencInt buf with
  | some p => p
  | none => (0, [])

theorem readLenencInt_length_lt {buf rest : List Nat} {v : Nat}
    (h : readLenencInt buf = some (v, rest)) : rest.length < buf.length := by
  match buf with
  | [] => simp [readLenencInt] at h
  | b :: tl =>
    simp only [readLenencInt] at h
    split at h
    · cases h; simp
    · split at h
      · match tl with
        | x0 :: x1 :: r => cases h; simp; omega
        | [] => cases h
        | [x0] => cases h
      · split at h
        · match tl with
          | x0 :: x1 :: x2 :: r => cases h; simp; omega
          | [] => cases h
          | [x0] => cases h
          | [x0, x1] => cases h
        · split at h
          · match tl with
            | x0 :: x1 :: x2 :: x3 :: x4 :: x5 :: x6 :: x7 :: r =>
              cases h; simp; omega
            | [] => cases h
            | [x0] => cases h
            | [x0, x1] => cases h
            | [x0, x1, x2] => cases h
            | [x0, x1, x2, x3] => cases h
            | [x0, x1, x2, x3, x4] => cases h
            | [x0, x1, x2, x3, x4, x5] => cases h
            | [x0, x1, x2, x3, x4, x5, x6] => cases h
          · cases h

theorem eatLenencInt_snd_length_le (buf : List Nat) :
    (eatLenencInt buf).2.length ≤ buf.length := by
  unfold eatLenencInt
  rcases h : readLenencInt buf with _ | ⟨v, r⟩
  · simp
  · have := readLenencInt_length_lt h
    simp
    omega

/-- The record type `TransactionPayloadEvent` (source lines 30–45).
`payload_size` and `uncompressed_size` are `u64` in the source,
`header_size` a `usize`; bytes are `List Nat`. -/
structure TransactionPayloadEvent where
  payload_size : Nat
  algorithm : TransactionPayloadCompressionType
  uncompressed_size : Nat
  payload : List Nat
  header_size : Nat
deriving DecidableEq

namespace TransactionPayloadEvent

/-- `TransactionPayloadEvent::new` (source lines 48–61): `header_size`
is initialised to 0. -/
def new (payload_size : Nat) (algorithm : TransactionPayloadCompressionType)
    (uncompressed_size : Nat) (payload : List Nat) : TransactionPayloadEvent :=
  { payload_size := payload_size
    algorithm := algorithm
    uncompressed_size := uncompressed_size
    payload := payload
    header_size := 0 }

/-- `TransactionPayloadEvent::with_payload_size` (source lines 64–67). -/
def with_payload_size (self : TransactionPayloadEvent) (payload_size : Nat) :
    TransactionPayloadEvent :=
  { self with payload_size := payload_size }

/-- `TransactionPayloadEvent::with_algorithm` (source lines 69–72). -/
def with_algorithm (self : TransactionPayloadEvent)
    (algorithm : TransactionPayloadCompressionType) : TransactionPayloadEvent :=
  { self with algorithm := algorithm }

/-- `TransactionPayloadEvent::with_uncompressed_size` (source lines 74–77). -/
def with_uncompressed_size (self : TransactionPayloadEvent)
    (uncompressed_size : Nat) : TransactionPayloadEvent :=
  { self with uncompressed_size := uncompressed_size }

/-- `TransactionPayloadEvent::with_payload` (source lines 80–83). -/
def with_payload (self : TransactionPayloadEvent) (payload : List Nat) :
    TransactionPayloadEvent :=
  { self with payload := payload }

end TransactionPayloadEvent

/-- The distinguishable outcomes of `deserialize` failing.  The source
returns `io::Error` values for the first three; `panicked` models the
process abort of the `.unwrap()` on line 183, which is not a returned
error at all. -/
inductive DesErr where
  | missingField
  | payloadExceedsBuffer
  | ioError
  | panicked
deriving DecidableEq

/-- The parse loop of `TransactionPayloadEvent::deserialize` (source
lines 144–199): `original_buf_size` is the cursor length at entry, `ob`
the record being populated, the two flags are `have_payload_size` /
`have_compression_type`.  Besides the record it reports whether the loop
ended through the terminator tag (`true`) or by exhausting the cursor
(`false`). -/
def deserializeLoop (original_buf_size : Nat) (ob : TransactionPayloadEvent)
    (have_payload_size have_compression_type : Bool) (buf : List Nat) :
    Except DesErr (TransactionPayloadEvent × Bool) :=
  match _hb : buf with
  | [] => .ok (ob, false)
  | _ :: _ =>
    match _h1 : readLenencInt buf with
    | none => .error .ioError
    | some (field_type, buf1) =>
      match fieldsTryFrom field_type with
      | some .OTW_PAYLOAD_HEADER_END_MARK =>
        if !have_payload_size || !have_compression_type then
          .error .missingField
        else if buf1.length < ob.payload_size then
          .error .payloadExceedsBuffer
        else
          .ok ({ ob with
                  header_size := original_buf_size - ob.payload_size
                  payload := buf1.take ob.payload_size }, true)
      | some .OTW_PAYLOAD_SIZE_FIELD =>
        match _h2 : readLenencInt buf1 with
        | none => .error .ioError
        | some (_length, buf2) =>
          match _h3 : readLenencInt buf2 with
          | none => .error .ioError
          | some (val, buf3) =>
            deserializeLoop original_buf_size { ob with payload_size := val }
              true have_compression_type buf3
      | some .OTW_PAYLOAD_COMPRESSION_TYPE_FIELD =>
        match _h2 : readLenencInt buf1 with
        | none => .error .ioError
        | some (_length, buf2) =>
          match _h3 : readLenencInt buf2 with
          | none => .error .ioError
          | some (val, buf3) =>
            match compressionTypeTryFrom val with
            | none => .error .panicked
            | some alg =>
              deserializeLoop original_buf_size { ob with algorithm := alg }
                have_payload_size true buf3
      | some .OTW_PAYLOAD_UNCOMPRESSED_SIZE_FIELD =>
        match _h2 : readLenencInt buf1 with
        | none => .error .ioError
        | some (_length, buf2) =>
          match _h3 : readLenencInt buf2 with
          | none => .error .ioError
          | some (val, buf3) =>
            deserializeLoop original_buf_size { ob with uncompressed_size := val }
              have_payload_size have_compression_type buf3
      | none =>
        let p := eatLenencInt buf1
        deserializeLoop original_buf_size ob have_payload_size
          have_compression_type (p.2.drop p.1)
termination_by buf.length
decreasing_by
  · have hlt1 := readLenencInt_length_lt _h1
    have hlt2 := readLenencInt_length_lt _h2
    have hlt3 := readLenencInt_length_lt _h3
    rw [← _hb]
    omega
  · have hlt1 := readLenencInt_length_lt _h1
    have hlt2 := readLenencInt_length_lt _h2
    have hlt3 := readLenencInt_length_lt _h3
    rw [← _hb]
    omega
  · have hlt1 := readLenencInt_length_lt _h1
    have hlt2 := readLenencInt_length_lt _h2
    have hlt3 := readLenencInt_length_lt _h3
    rw [← _hb]
    omega
  · have hlt1 := readLenencInt_length_lt _h1
    have hdrop := eatLenencInt_snd_length_le buf1
    rw [← _hb]
    simp only [List.length_drop]
    omega

/-- The record `deserialize` starts from (source lines 135–141). -/
def initialOb : TransactionPayloadEvent :=
  { payload_size := 0
    algorithm := .NONE
    uncompressed_size := 0
    payload := []
    header_size := 0 }

/-- `TransactionPayloadEvent::deserialize` together with the
loop-exit flag (terminator seen or cursor exhausted). -/
def deserializeAux (buf : List Nat) : Except DesErr (TransactionPayloadEvent × Bool) :=
  deserializeLoop buf.length initialOb false false buf

/-- `MyDeserialize::deserialize` for `TransactionPayloadEvent`
(source lines 134–202). -/
def deserialize (buf : List Nat) : Except DesErr TransactionPayloadEvent :=
  (deserializeAux buf).map Prod.fst

/-- Modelled from the spec: `crate::misc::lenenc_int_len` (not under
`src/`): the number of bytes `putLenencInt` produces for a value. -/
def lenenc_int_len (x : Nat) : Nat :=
  if x < 251 then 1
  else if x < 2 ^ 16 then 3
  else if x < 2 ^ 24 then 4
  else 9

/-- Modelled from the spec: the length-encoded-integer writer
(`BufMutExt::put_lenenc_int`, `crate::io`, not under `src/`), inverse of
`readLenencInt` for values below `2 ^ 64`. -/
def putLenencInt (x : Nat) : List Nat :=
  if x < 251 then [x]
  else if x < 2 ^ 16 then [252, x % 256, x / 256 % 256]
  else if x < 2 ^ 24 then [253, x % 256, x / 256 % 256, x / 256 ^ 2 % 256]
  else [254, x % 256, x / 256 % 256, x / 256 ^ 2 % 256, x / 256 ^ 3 % 256,
        x / 256 ^ 4 % 256, x / 256 ^ 5 % 256, x / 256 ^ 6 % 256, x / 256 ^ 7 % 256]

/-- The tagged-field header part of `MySerialize::serialize` for
`TransactionPayloadEvent` (source lines 206–223): compression-type
field, uncompressed-size field only when the algorithm is not `NONE`,
payload-size field, then the terminator tag. -/
def serializeHeader (self : TransactionPayloadEvent) : List Nat :=
  putLenencInt (fieldsCode .OTW_PAYLOAD_COMPRESSION_TYPE_FIELD)
    ++ putLenencInt (lenenc_int_len (compressionTypeCode self.algorithm))
    ++ putLenencInt (compressionTypeCode self.algorithm)
    ++ (if self.algorithm ≠ .NONE then
          putLenencInt (fieldsCode .OTW_PAYLOAD_UNCOMPRESSED_SIZE_FIELD)
            ++ putLenencInt (lenenc_int_len self.uncompressed_size)
            ++ putLenencInt self.uncompressed_size
        else [])
    ++ putLenencInt (fieldsCode .OTW_PAYLOAD_SIZE_FIELD)
    ++ putLenencInt (lenenc_int_len self.payload_size)
    ++ putLenencInt self.payload_size
    ++ putLenencInt (fieldsCode .OTW_PAYLOAD_HEADER_END_MARK)

/-- `MySerialize::serialize` for `TransactionPayloadEvent` (source
lines 206–226): the tagged header followed by the payload bytes
verbatim. -/
def serialize (self : TransactionPayloadEvent) : List Nat :=
  serializeHeader self ++ self.payload

/-- Modelled from the spec: `BinlogEventHeader::LEN` (not under `src/`),
the outer envelope's fixed header length (19 bytes). -/
def BinlogEventHeader_LEN : Nat := 19

/-- Saturating addition on `usize` (the `saturating::Saturating<usize>`
`+=` of source line 237, on a 64-bit target). -/
def satAddUsize (a b : Nat) : Nat := min (a + b) (2 ^ 64 - 1)

/-- `BinlogStruct::len` for `TransactionPayloadEvent` (source lines
234–240): saturating `header_size + payload.len()` clamped to
`u32::MAX - BinlogEventHeader::LEN`. -/
def binlogStructLen (self : TransactionPayloadEvent) : Nat :=
  min (satAddUsize self.header_size self.payload.length)
    (2 ^ 32 - 1 - BinlogEventHeader_LEN)

/-- `TransactionPayloadEvent::decompress_payload` (source lines 96–108).
The zstd decompressor (`zstd::stream::copy_decode`, an external crate)
is passed in as the outcome of its one call: `.ok` with the bytes it
wrote into the `uncompressed_size`-sized buffer, or `.error ()` when it
rejects the payload.  The source returns `Vec::new()` on that error. -/
def decompress_payload (zstd_copy_decode : Except Unit (List Nat))
    (self : TransactionPayloadEvent) : List Nat :=
  if self.algorithm = .NONE then self.payload
  else
    match zstd_copy_decode with
    | .ok decode_buf => decode_buf
    | .error _ => []

/-- One builder-style mutation on a record: an application of one of
the four `with_*` methods (source lines 64–83). -/
inductive BuilderMutation where
  | setPayloadSize (n : Nat)
  | setAlgorithm (a : TransactionPayloadCompressionType)
  | setUncompressedSize (n : Nat)
  | setPayload (p : List Nat)

/-- Applies one `with_*` method. -/
def applyMutation (r : TransactionPayloadEvent) : BuilderMutation → TransactionPayloadEvent
  | .setPayloadSize n => r.with_payload_size n
  | .setAlgorithm a => r.with_algorithm a
  | .setUncompressedSize n => r.with_uncompressed_size n
  | .setPayload p => r.with_payload p

/-- A record built through the public constructor `new` followed by any
sequence of builder-style `with_*` mutations. -/
def buildRecord (payload_size : Nat) (algorithm : TransactionPayloadCompressionType)
    (uncompressed_size : Nat) (payload : List Nat) (muts : List BuilderMutation) :
    TransactionPayloadEvent :=
  muts.foldl applyMutation
    (TransactionPayloadEvent.new payload_size algorithm uncompressed_size payload)

theorem readLenencInt_cons_small (b : Nat) (rest : List Nat) (h : b < 251) :
    readLenencInt (b :: rest) = some (b, rest) := by
  simp [readLenencInt, h]

theorem putLenencInt_small {x : Nat} (h : x < 251) : putLenencInt x = [x] := by
  simp [putLenencInt, h]

theorem lenenc_int_len_lt (x : Nat) : lenenc_int_len x < 251 := by
  unfold lenenc_int_len
  split
  · omega
  · split
    · omega
    · split <;> omega

theorem readLenencInt_putLenencInt {x : Nat} (h : x < 2 ^ 64) (rest : List Nat) :
    readLenencInt (putLenencInt x ++ rest) = some (x, rest) := by
  by_cases h1 : x < 251
  · rw [putLenencInt, if_pos h1]
    simp [readLenencInt, h1]
  · by_cases h2 : x < 2 ^ 16
    · rw [putLenencInt, if_neg h1, if_pos h2]
      simp only [List.cons_append, List.nil_append, readLenencInt]
      norm_num
      omega
    · by_cases h3 : x < 2 ^ 24
      · rw [putLenencInt, if_neg h1, if_neg h2, if_pos h3]
        simp only [List.cons_append, List.nil_append, readLenencInt]
        norm_num
        omega
      · rw [putLenencInt, if_neg h1, if_neg h2, if_neg h3]
        simp only [List.cons_append, List.nil_append, readLenencInt]
        norm_num
        omega

theorem fieldsTryFrom_unknown {v : Nat} (h : 3 < v) : fieldsTryFrom v = none := by
  unfold fieldsTryFrom
  rw [if_neg (by omega), if_neg (by omega), if_neg (by omega), if_neg (by omega)]

theorem foldl_applyMutation_header_size (muts : List BuilderMutation) :
    ∀ r : TransactionPayloadEvent,
      (muts.foldl applyMutation r).header_size = r.header_size := by
  induction muts with
  | nil => intro r; rfl
  | cons m tl ih =>
    intro r
    rw [List.foldl_cons, ih]
    cases m <;>
      simp [applyMutation, TransactionPayloadEvent.with_payload_size,
        TransactionPayloadEvent.with_algorithm,
        TransactionPayloadEvent.with_uncompressed_size,
        TransactionPayloadEvent.with_payload]

theorem deserializeLoop_nil (orig : Nat) (ob : TransactionPayloadEvent)
    (hps hct : Bool) : deserializeLoop orig ob hps hct [] = .ok (ob, false) := by
  rw [deserializeLoop.eq_def]

theorem deserializeLoop_end_mark (orig : Nat) (ob : TransactionPayloadEvent)
    (hps hct : Bool) {buf buf1 : List Nat} {t : Nat}
    (h1 : readLenencInt buf = some (t, buf1))
    (ht : fieldsTryFrom t = some .OTW_PAYLOAD_HEADER_END_MARK) :
    deserializeLoop orig ob hps hct buf =
      if !hps || !hct then .error .missingField
      else if buf1.length < ob.payload_size then .error .payloadExceedsBuffer
      else .ok ({ ob with
                  header_size := orig - ob.payload_size
                  payload := buf1.take ob.payload_size }, true) := by
  cases buf with
  | nil => simp [readLenencInt] at h1
  | cons b tl =>
    rw [deserializeLoop.eq_def]
    split
    · next heq => exact absurd heq (List.cons_ne_nil b tl)
    · split
      · next heq => rw [h1] at heq; cases heq
      · next t2 b2 heq =>
        rw [h1] at heq
        cases heq
        rw [ht]

theorem deserializeLoop_size_field (orig : Nat) (ob : TransactionPayloadEvent)
    (hps hct : Bool) {buf buf1 buf2 buf3 : List Nat} {t L v : Nat}
    (h1 : readLenencInt buf = some (t, buf1))
    (ht : fieldsTryFrom t = some .OTW_PAYLOAD_SIZE_FIELD)
    (h2 : readLenencInt buf1 = some (L, buf2))
    (h3 : readLenencInt buf2 = some (v, buf3)) :
    deserializeLoop orig ob hps hct buf =
      deserializeLoop orig { ob with payload_size := v } true hct buf3 := by
  cases buf with
  | nil => simp [readLenencInt] at h1
  | cons b tl =>
    rw [deserializeLoop.eq_def]
    split
    · next heq => exact absurd heq (List.cons_ne_nil b tl)
    · split
      · next heq => rw [h1] at heq; cases heq
      · next t2 b2 heq =>
        rw [h1] at heq
        cases heq
        rw [ht]
        split <;> rename_i heqF <;> cases heqF
        split
        · next heq2 => rw [h2] at heq2; cases heq2
        · next L2 c2 heq2 =>
          rw [h2] at heq2
          cases heq2
          split
          · next heq3 => rw [h3] at heq3; cases heq3
          · next v2 d2 heq3 =>
            rw [h3] at heq3
            cases heq3
            rfl

theorem deserializeLoop_compression_field (orig : Nat) (ob : TransactionPayloadEvent)
    (hps hct : Bool) {buf buf1 buf2 buf3 : List Nat} {t L v : Nat}
    {alg : TransactionPayloadCompressionType}
    (h1 : readLenencInt buf = some (t, buf1))
    (ht : fieldsTryFrom t = some .OTW_PAYLOAD_COMPRESSION_TYPE_FIELD)
    (h2 : readLenencInt buf1 = some (L, buf2))
    (h3 : readLenencInt buf2 = some (v, buf3))
    (ha : compressionTypeTryFrom v = some alg) :
    deserializeLoop orig ob hps hct buf =
      deserializeLoop orig { ob with algorithm := alg } hps true buf3 := by
  cases buf with
  | nil => simp [readLenencInt] at h1
  | cons b tl =>
    rw [deserializeLoop.eq_def]
    split
    · next heq => exact absurd heq (List.cons_ne_nil b tl)
    · split
      · next heq => rw [h1] at heq; cases heq
      · next t2 b2 heq =>
        rw [h1] at heq
        cases heq
        rw [ht]
        split <;> rename_i heqF <;> cases heqF
        split
        · next heq2 => rw [h2] at heq2; cases heq2
        · next L2 c2 heq2 =>
          rw [h2] at heq2
          cases heq2
          split
          · next heq3 => rw [h3] at heq3; cases heq3
          · next v2 d2 heq3 =>
            rw [h3] at heq3
            cases heq3
            rw [ha]

theorem deserializeLoop_compression_field_unknown (orig : Nat)
    (ob : TransactionPayloadEvent) (hps hct : Bool)
    {buf buf1 buf2 buf3 : List Nat} {t L v : Nat}
    (h1 : readLenencInt buf = some (t, buf1))
    (ht : fieldsTryFrom t = some .OTW_PAYLOAD_COMPRESSION_TYPE_FIELD)
    (h2 : readLenencInt buf1 = some (L, buf2))
    (h3 : readLenencInt buf2 = some (v, buf3))
    (ha : compressionTypeTryFrom v = none) :
    deserializeLoop orig ob hps hct buf = .error .panicked := by
  cases buf with
  | nil => simp [readLenencInt] at h1
  | cons b tl =>
    rw [deserializeLoop.eq_def]
    split
    · next heq => exact absurd heq (List.cons_ne_nil b tl)
    · split
      · next heq => rw [h1] at heq; cases heq
      · next t2 b2 heq =>
        rw [h1] at heq
        cases heq
        rw [ht]
        split <;> rename_i heqF <;> cases heqF
        split
        · next heq2 => rw [h2] at heq2; cases heq2
        · next L2 c2 heq2 =>
          rw [h2] at heq2
          cases heq2
          split
          · next heq3 => rw [h3] at heq3; cases heq3
          · next v2 d2 heq3 =>
            rw [h3] at heq3
            cases heq3
            rw [ha]

theorem deserializeLoop_uncompressed_field (orig : Nat) (ob : TransactionPayloadEvent)
    (hps hct : Bool) {buf buf1 buf2 buf3 : List Nat} {t L v : Nat}
    (h1 : readLenencInt buf = some (t, buf1))
    (ht : fieldsTryFrom t = some .OTW_PAYLOAD_UNCOMPRESSED_SIZE_FIELD)
    (h2 : readLenencInt buf1 = some (L, buf2))
    (h3 : readLenencInt buf2 = some (v, buf3)) :
    deserializeLoop orig ob hps hct buf =
      deserializeLoop orig { ob with uncompressed_size := v } hps hct buf3 := by
  cases buf with
  | nil => simp [readLenencInt] at h1
  | cons b tl =>
    rw [deserializeLoop.eq_def]
    split
    · next heq => exact absurd heq (List.cons_ne_nil b tl)
    · split
      · next heq => rw [h1] at heq; cases heq
      · next t2 b2 heq =>
        rw [h1] at heq
        cases heq
        rw [ht]
        split <;> rename_i heqF <;> cases heqF
        split
        · next heq2 => rw [h2] at heq2; cases heq2
        · next L2 c2 heq2 =>
          rw [h2] at heq2
          cases heq2
          split
          · next heq3 => rw [h3] at heq3; cases heq3
          · next v2 d2 heq3 =>
            rw [h3] at heq3
            cases heq3
            rfl

theorem deserializeLoop_unknown_field (orig : Nat) (ob : TransactionPayloadEvent)
    (hps hct : Bool) {buf buf1 : List Nat} {t : Nat}
    (h1 : readLenencInt buf = some (t, buf1))
    (ht : fieldsTryFrom t = none) :
    deserializeLoop orig ob hps hct buf =
      deserializeLoop orig ob hps hct
        ((eatLenencInt buf1).2.drop (eatLenencInt buf1).1) := by
  cases buf with
  | nil => simp [readLenencInt] at h1
  | cons b tl =>
    rw [deserializeLoop.eq_def]
    split
    · next heq => exact absurd heq (List.cons_ne_nil b tl)
    · split
      · next heq => rw [h1] at heq; cases heq
      · next t2 b2 heq =>
        rw [h1] at heq
        cases heq
        rw [ht]

/-- C1: at the terminator tag (with both required fields seen), a
declared `payload_size` larger than the bytes remaining after the tag
makes the parse loop fail with the payload-exceeds-buffer error and
return no payload; when `payload_size` is at most the remaining length,
the loop succeeds taking exactly `payload_size` bytes as the payload. -/
theorem c1_terminator_payload_bounds (orig : Nat) (ob : TransactionPayloadEvent)
    (rest : List Nat) :
    (rest.length < ob.payload_size →
      deserializeLoop orig ob true true (0 :: rest) = .error .payloadExceedsBuffer) ∧
    (ob.payload_size ≤ rest.length →
      deserializeLoop orig ob true true (0 :: rest) =
        .ok ({ ob with
               header_size := orig - ob.payload_size
               payload := rest.take ob.payload_size }, true)) := by
  rw [deserializeLoop_end_mark orig ob true true
    (readLenencInt_cons_small 0 rest (by norm_num)) rfl]
  constructor
  · intro h
    simp [h]
  · intro h
    simp [Nat.not_lt.mpr h]

theorem c1_terminator_payload_bounds_witness :
    deserializeLoop 20
      { payload_size := 100
        algorithm := .NONE
        uncompressed_size := 0
        payload := []
        header_size := 0 } true true (0 :: [1, 2, 3]) =
      .error .payloadExceedsBuffer ∧
    deserializeLoop 10
      { payload_size := 2
        algorithm := .ZSTD
        uncompressed_size := 5
        payload := []
        header_size := 0 } true true (0 :: [7, 8, 9]) =
      .ok ({ payload_size := 2
             algorithm := .ZSTD
             uncompressed_size := 5
             payload := [7, 8]
             header_size := 8 }, true) :=
  ⟨(c1_terminator_payload_bounds 20 _ [1, 2, 3]).1 (by norm_num),
   (c1_terminator_payload_bounds 10 _ [7, 8, 9]).2 (by norm_num)⟩

/-- C2: on a compression-type field carrying the unknown value 2, the
source does not return a decode error: line 183's
`TransactionPayloadCompressionType::try_from(val).unwrap()` aborts the
process (modelled by the distinguished `panicked` outcome). -/
theorem c2_unknown_algorithm_aborts :
    deserialize [2, 1, 2] = .error .panicked := by
  unfold deserialize deserializeAux
  rw [deserializeLoop.eq_def]
  simp [readLenencInt, fieldsTryFrom, compressionTypeTryFrom, Except.map]

/-- C3 counterexample: the empty buffer is exhausted before any
terminator tag, yet `deserialize` returns a successfully parsed record
(the default-initialised one), not an error. -/
theorem c3_exhaustion_counterexample : deserialize [] = .ok initialOb := by
  unfold deserialize deserializeAux
  rw [deserializeLoop.eq_def]
  rfl

/-- C3 amended: exhaustion of the cursor at a field boundary before a
terminator is not an error: the parse loop returns `Ok` with the fields
populated so far and the payload still empty (e.g. a buffer holding only
a payload-size field parses successfully). -/
theorem c3_exhaustion_returns_ok :
    (∀ (orig : Nat) (ob : TransactionPayloadEvent) (hps hct : Bool),
      deserializeLoop orig ob hps hct [] = .ok (ob, false)) ∧
    (∀ n : Nat, n < 251 → deserialize [1, 1, n] =
      .ok { payload_size := n
            algorithm := .NONE
            uncompressed_size := 0
            payload := []
            header_size := 0 }) := by
  constructor
  · intro orig ob hps hct
    exact deserializeLoop_nil orig ob hps hct
  · intro n hn
    unfold deserialize deserializeAux
    rw [deserializeLoop_size_field _ _ _ _
      (readLenencInt_cons_small 1 [1, n] (by norm_num)) rfl
      (readLenencInt_cons_small 1 [n] (by norm_num))
      (readLenencInt_cons_small n [] hn)]
    rw [deserializeLoop_nil]
    rfl

theorem c3_exhaustion_returns_ok_witness :
    deserialize [1, 1, 5] =
      .ok { payload_size := 5
            algorithm := .NONE
            uncompressed_size := 0
            payload := []
            header_size := 0 } :=
  c3_exhaustion_returns_ok.2 5 (by norm_num)

/-- C4: when the algorithm is not `NONE` and the zstd decompressor
rejects the payload, `decompress_payload` returns the empty byte buffer
(source line 104 returns `Vec::new()`); its return type `Vec<u8>` cannot
carry an error at all. -/
theorem c4_decompress_failure_returns_empty :
    decompress_payload (.error ())
      { payload_size := 3
        algorithm := .ZSTD
        uncompressed_size := 4
        payload := [1, 2, 3]
        header_size := 0 } = [] := rfl

/-- C5: reaching the terminator tag before both required fields were
seen makes the parse loop fail with the missing-field error; in
particular a header holding only the compression-type field before the
terminator fails that way. -/
theorem c5_terminator_missing_field :
    (∀ (orig : Nat) (ob : TransactionPayloadEvent) (hps hct : Bool) (rest : List Nat),
      hps = false ∨ hct = false →
      deserializeLoop orig ob hps hct (0 :: rest) = .error .missingField) ∧
    deserialize [2, 1, 0, 0] = .error .missingField := by
  have general : ∀ (orig : Nat) (ob : TransactionPayloadEvent) (hps hct : Bool)
      (rest : List Nat), hps = false ∨ hct = false →
      deserializeLoop orig ob hps hct (0 :: rest) = .error .missingField := by
    intro orig ob hps hct rest h
    rw [deserializeLoop_end_mark orig ob hps hct
      (readLenencInt_cons_small 0 rest (by norm_num)) rfl]
    rcases h with h | h <;> subst h <;> simp
  refine ⟨general, ?_⟩
  unfold deserialize deserializeAux
  simp only [List.length_cons, List.length_nil]
  rw [deserializeLoop_compression_field _ _ _ _
    (readLenencInt_cons_small 2 [1, 0, 0] (by norm_num)) rfl
    (readLenencInt_cons_small 1 [0, 0] (by norm_num))
    (readLenencInt_cons_small 0 [0] (by norm_num)) rfl]
  rw [general 4 _ false true [] (Or.inl rfl)]
  rfl

theorem c5_terminator_missing_field_witness :
    deserializeLoop 4 initialOb false true [0] = .error .missingField :=
  c5_terminator_missing_field.1 4 initialOb false true [] (Or.inl rfl)

theorem deserializeLoop_read_fail (orig : Nat) (ob : TransactionPayloadEvent)
    (hps hct : Bool) {b : Nat} {tl : List Nat}
    (h1 : readLenencInt (b :: tl) = none) :
    deserializeLoop orig ob hps hct (b :: tl) = .error .ioError := by
  rw [deserializeLoop.eq_def]
  split
  · next heq => exact absurd heq (List.cons_ne_nil b tl)
  · split
    · rfl
    · next t2 b2 heq => rw [h1] at heq; cases heq

theorem deserializeLoop_inner_len_fail (orig : Nat) (ob : TransactionPayloadEvent)
    (hps hct : Bool) {buf buf1 : List Nat} {t : Nat} {F : TransactionPayloadFields}
    (h1 : readLenencInt buf = some (t, buf1))
    (ht : fieldsTryFrom t = some F)
    (hF : F ≠ .OTW_PAYLOAD_HEADER_END_MARK)
    (h2 : readLenencInt buf1 = none) :
    deserializeLoop orig ob hps hct buf = .error .ioError := by
  cases buf with
  | nil => simp [readLenencInt] at h1
  | cons b tl =>
    cases F with
    | OTW_PAYLOAD_HEADER_END_MARK => exact absurd rfl hF
    | OTW_PAYLOAD_SIZE_FIELD =>
      rw [deserializeLoop.eq_def]
      split
      · next heq => exact absurd heq (List.cons_ne_nil b tl)
      · split
        · rfl
        · next t2 b2 heq =>
          rw [h1] at heq; cases heq
          rw [ht]
          split
          · next heqF => cases heqF
          · next heqF =>
            cases heqF
            split
            · rfl
            · next L2 c2 heq2 => rw [h2] at heq2; cases heq2
          · next heqF => cases heqF
          · next heqF => cases heqF
          · next heqF => cases heqF
    | OTW_PAYLOAD_COMPRESSION_TYPE_FIELD =>
      rw [deserializeLoop.eq_def]
      split
      · next heq => exact absurd heq (List.cons_ne_nil b tl)
      · split
        · rfl
        · next t2 b2 heq =>
          rw [h1] at heq; cases heq
          rw [ht]
          split
          · next heqF => cases heqF
          · next heqF => cases heqF
          · next heqF =>
            cases heqF
            split
            · rfl
            · next L2 c2 heq2 => rw [h2] at heq2; cases heq2
          · next heqF => cases heqF
          · next heqF => cases heqF
    | OTW_PAYLOAD_UNCOMPRESSED_SIZE_FIELD =>
      rw [deserializeLoop.eq_def]
      split
      · next heq => exact absurd heq (List.cons_ne_nil b tl)
      · split
        · rfl
        · next t2 b2 heq =>
          rw [h1] at heq; cases heq
          rw [ht]
          split
          · next heqF => cases heqF
          · next heqF => cases heqF
          · next heqF => cases heqF
          · next heqF =>
            cases heqF
            split
            · rfl
            · next L2 c2 heq2 => rw [h2] at heq2; cases heq2
          · next heqF => cases heqF

theorem deserializeLoop_inner_val_fail (orig : Nat) (ob : TransactionPayloadEvent)
    (hps hct : Bool) {buf buf1 buf2 : List Nat} {t L : Nat}
    {F : TransactionPayloadFields}
    (h1 : readLenencInt buf = some (t, buf1))
    (ht : fieldsTryFrom t = some F)
    (hF : F ≠ .OTW_PAYLOAD_HEADER_END_MARK)
    (h2 : readLenencInt buf1 = some (L, buf2))
    (h3 : readLenencInt buf2 = none) :
    deserializeLoop orig ob hps hct buf = .error .ioError := by
  cases buf with
  | nil => simp [readLenencInt] at h1
  | cons b tl =>
    cases F with
    | OTW_PAYLOAD_HEADER_END_MARK => exact absurd rfl hF
    | OTW_PAYLOAD_SIZE_FIELD =>
      rw [deserializeLoop.eq_def]
      split
      · next heq => exact absurd heq (List.cons_ne_nil b tl)
      · split
        · rfl
        · next t2 b2 heq =>
          rw [h1] at heq; cases heq
          rw [ht]
          split
          · next heqF => cases heqF
          · next heqF =>
            cases heqF
            split
            · rfl
            · next L2 c2 heq2 =>
              rw [h2] at heq2; cases heq2
              split
              · rfl
              · next v2 d2 heq3 => rw [h3] at heq3; cases heq3
          · next heqF => cases heqF
          · next heqF => cases heqF
          · next heqF => cases heqF
    | OTW_PAYLOAD_COMPRESSION_TYPE_FIELD =>
      rw [deserializeLoop.eq_def]
      split
      · next heq => exact absurd heq (List.cons_ne_nil b tl)
      · split
        · rfl
        · next t2 b2 heq =>
          rw [h1] at heq; cases heq
          rw [ht]
          split
          · next heqF => cases heqF
          · next heqF => cases heqF
          · next heqF =>
            cases heqF
            split
            · rfl
            · next L2 c2 heq2 =>
              rw [h2] at heq2; cases heq2
              split
              · rfl
              · next v2 d2 heq3 => rw [h3] at heq3; cases heq3
          · next heqF => cases heqF
          · next heqF => cases heqF
    | OTW_PAYLOAD_UNCOMPRESSED_SIZE_FIELD =>
      rw [deserializeLoop.eq_def]
      split
      · next heq => exact absurd heq (List.cons_ne_nil b tl)
      · split
        · rfl
        · next t2 b2 heq =>
          rw [h1] at heq; cases heq
          rw [ht]
          split
          · next heqF => cases heqF
          · next heqF => cases heqF
          · next heqF => cases heqF
          · next heqF =>
            cases heqF
            split
            · rfl
            · next L2 c2 heq2 =>
              rw [h2] at heq2; cases heq2
              split
              · rfl
              · next v2 d2 heq3 => rw [h3] at heq3; cases heq3
          · next heqF => cases heqF

theorem deserializeLoop_end_true_invariant (orig : Nat) :
    ∀ (ob : TransactionPayloadEvent) (hps hct : Bool) (buf : List Nat)
      (r : TransactionPayloadEvent),
      buf.length ≤ orig →
      deserializeLoop orig ob hps hct buf = .ok (r, true) →
      r.header_size = orig - r.payload_size ∧ r.payload_size ≤ orig ∧
      r.payload.length = r.payload_size := by
  intro ob hps hct buf
  induction ob, hps, hct, buf using deserializeLoop.induct with
  | original_buf_size => exact orig
  | case1 ob hps hct =>
    intro r hlen heq
    rw [deserializeLoop_nil] at heq
    simp at heq
  | case2 ob hps hct head tail h1 =>
    intro r hlen heq
    rw [deserializeLoop_read_fail orig ob hps hct h1] at heq
    cases heq
  | case3 ob hps hct head tail t buf1 ht hflag h1 =>
    intro r hlen heq
    rw [deserializeLoop_end_mark orig ob hps hct h1 ht, if_pos hflag] at heq
    cases heq
  | case4 ob hps hct head tail t buf1 ht hflag hover h1 =>
    intro r hlen heq
    rw [deserializeLoop_end_mark orig ob hps hct h1 ht, if_neg hflag,
      if_pos hover] at heq
    cases heq
  | case5 ob hps hct head tail t buf1 ht hflag hover h1 =>
    intro r hlen heq
    rw [deserializeLoop_end_mark orig ob hps hct h1 ht, if_neg hflag,
      if_neg hover] at heq
    have a1 := readLenencInt_length_lt h1
    simp only [Except.ok.injEq, Prod.mk.injEq] at heq
    obtain ⟨hr, -⟩ := heq
    subst hr
    refine ⟨rfl, ?_, ?_⟩
    · simp only []
      omega
    · simp only [List.length_take]
      omega
  | case6 ob hps hct head tail t buf1 ht h2 h1 =>
    intro r hlen heq
    rw [deserializeLoop_inner_len_fail orig ob hps hct h1 ht (by simp) h2] at heq
    cases heq
  | case7 ob hps hct head tail t buf1 ht L buf2 h2 h3 h1 =>
    intro r hlen heq
    rw [deserializeLoop_inner_val_fail orig ob hps hct h1 ht (by simp) h2 h3] at heq
    cases heq
  | case8 ob hps hct head tail t buf1 ht L buf2 h2 v buf3 h3 h1 IH =>
    intro r hlen heq
    rw [deserializeLoop_size_field orig ob hps hct h1 ht h2 h3] at heq
    have a1 := readLenencInt_length_lt h1
    have a2 := readLenencInt_length_lt h2
    have a3 := readLenencInt_length_lt h3
    exact IH r (by omega) heq
  | case9 ob hps hct head tail t buf1 ht h2 h1 =>
    intro r hlen heq
    rw [deserializeLoop_inner_len_fail orig ob hps hct h1 ht (by simp) h2] at heq
    cases heq
  | case10 ob hps hct head tail t buf1 ht L buf2 h2 h3 h1 =>
    intro r hlen heq
    rw [deserializeLoop_inner_val_fail orig ob hps hct h1 ht (by simp) h2 h3] at heq
    cases heq
  | case11 ob hps hct head tail t buf1 ht L buf2 h2 v buf3 h3 ha h1 =>
    intro r hlen heq
    rw [deserializeLoop_compression_field_unknown orig ob hps hct h1 ht h2 h3 ha] at heq
    cases heq
  | case12 ob hps hct head tail t buf1 ht L buf2 h2 v buf3 h3 alg ha h1 IH =>
    intro r hlen heq
    rw [deserializeLoop_compression_field orig ob hps hct h1 ht h2 h3 ha] at heq
    have a1 := readLenencInt_length_lt h1
    have a2 := readLenencInt_length_lt h2
    have a3 := readLenencInt_length_lt h3
    exact IH r (by omega) heq
  | case13 ob hps hct head tail t buf1 ht h2 h1 =>
    intro r hlen heq
    rw [deserializeLoop_inner_len_fail orig ob hps hct h1 ht (by simp) h2] at heq
    cases heq
  | case14 ob hps hct head tail t buf1 ht L buf2 h2 h3 h1 =>
    intro r hlen heq
    rw [deserializeLoop_inner_val_fail orig ob hps hct h1 ht (by simp) h2 h3] at heq
    cases heq
  | case15 ob hps hct head tail t buf1 ht L buf2 h2 v buf3 h3 h1 IH =>
    intro r hlen heq
    rw [deserializeLoop_uncompressed_field orig ob hps hct h1 ht h2 h3] at heq
    have a1 := readLenencInt_length_lt h1
    have a2 := readLenencInt_length_lt h2
    have a3 := readLenencInt_length_lt h3
    exact IH r (by omega) heq
  | case16 ob hps hct head tail t buf1 ht p h1 IH =>
    intro r hlen heq
    rw [deserializeLoop_unknown_field orig ob hps hct h1 ht] at heq
    have hp : p = eatLenencInt buf1 := rfl
    rw [hp] at IH
    have a1 := readLenencInt_length_lt h1
    have a2 := eatLenencInt_snd_length_le buf1
    have a3 : ((eatLenencInt buf1).2.drop (eatLenencInt buf1).1).length ≤
        (eatLenencInt buf1).2.length := by simp
    exact IH r (by omega) heq

/-- C7: whenever deserialization succeeds through the terminator tag,
`header_size` equals the length of the cursor at entry minus
`payload_size`, and the payload is exactly `payload_size` bytes — so for
a buffer that is a header of encoded size H followed by exactly the
declared payload (H + P = N), `header_size = H`. -/
theorem c7_header_size_equality (buf : List Nat) (r : TransactionPayloadEvent)
    (h : deserializeAux buf = .ok (r, true)) :
    r.header_size = buf.length - r.payload_size ∧ r.payload_size ≤ buf.length ∧
    r.payload.length = r.payload_size :=
  deserializeLoop_end_true_invariant buf.length initialOb false false buf r
    (le_refl buf.length) h

theorem c7_header_size_equality_witness :
    deserializeAux [2, 1, 0, 1, 1, 2, 0, 9, 9] =
      .ok ({ payload_size := 2
             algorithm := .NONE
             uncompressed_size := 0
             payload := [9, 9]
             header_size := 7 }, true) ∧
    ((7 : Nat) = 9 - 2 ∧ (2 : Nat) ≤ 9 ∧ ([9, 9] : List Nat).length = 2) := by
  have h : deserializeAux [2, 1, 0, 1, 1, 2, 0, 9, 9] =
      .ok ({ payload_size := 2
             algorithm := .NONE
             uncompressed_size := 0
             payload := [9, 9]
             header_size := 7 }, true) := by
    unfold deserializeAux
    rw [deserializeLoop_compression_field _ _ _ _
      (readLenencInt_cons_small 2 [1, 0, 1, 1, 2, 0, 9, 9] (by norm_num)) rfl
      (readLenencInt_cons_small 1 [0, 1, 1, 2, 0, 9, 9] (by norm_num))
      (readLenencInt_cons_small 0 [1, 1, 2, 0, 9, 9] (by norm_num)) rfl]
    rw [deserializeLoop_size_field _ _ _ _
      (readLenencInt_cons_small 1 [1, 2, 0, 9, 9] (by norm_num)) rfl
      (readLenencInt_cons_small 1 [2, 0, 9, 9] (by norm_num))
      (readLenencInt_cons_small 2 [0, 9, 9] (by norm_num))]
    rw [deserializeLoop_end_mark _ _ _ _
      (readLenencInt_cons_small 0 [9, 9] (by norm_num)) rfl]
    norm_num [initialOb]
  refine ⟨h, ?_⟩
  exact c7_header_size_equality _ _ h

/-- C8: a field with an unrecognized tag is skipped by reading its
length prefix and dropping exactly that many bytes, after which parsing
continues on the remaining buffer unchanged; in particular a header with
an unknown tagged field before the required fields and terminator parses
successfully, ignoring the unknown field's bytes. -/
theorem c8_unknown_field_skipped :
    (∀ (orig : Nat) (ob : TransactionPayloadEvent) (hps hct : Bool)
       (t L : Nat) (data rest : List Nat),
      3 < t → t < 251 → L < 251 → data.length = L →
      deserializeLoop orig ob hps hct (t :: L :: (data ++ rest)) =
        deserializeLoop orig ob hps hct rest) ∧
    deserialize [5, 2, 9, 9, 2, 1, 0, 1, 1, 0, 0] =
      .ok { payload_size := 0
            algorithm := .NONE
            uncompressed_size := 0
            payload := []
            header_size := 11 } := by
  have general : ∀ (orig : Nat) (ob : TransactionPayloadEvent) (hps hct : Bool)
      (t L : Nat) (data rest : List Nat),
      3 < t → t < 251 → L < 251 → data.length = L →
      deserializeLoop orig ob hps hct (t :: L :: (data ++ rest)) =
        deserializeLoop orig ob hps hct rest := by
    intro orig ob hps hct t L data rest ht1 ht2 hL hdata
    rw [deserializeLoop_unknown_field orig ob hps hct
      (readLenencInt_cons_small t (L :: (data ++ rest)) ht2) (fieldsTryFrom_unknown ht1)]
    have he : eatLenencInt (L :: (data ++ rest)) = (L, data ++ rest) := by
      unfold eatLenencInt
      rw [readLenencInt_cons_small L (data ++ rest) hL]
    rw [he]
    subst hdata
    rw [List.drop_left]
  refine ⟨general, ?_⟩
  unfold deserialize deserializeAux
  show Except.map Prod.fst
    (deserializeLoop 11 initialOb false false
      (5 :: 2 :: ([9, 9] ++ [2, 1, 0, 1, 1, 0, 0]))) = _
  rw [general 11 initialOb false false 5 2 [9, 9] [2, 1, 0, 1, 1, 0, 0]
    (by norm_num) (by norm_num) (by norm_num) rfl]
  rw [deserializeLoop_compression_field _ _ _ _
    (readLenencInt_cons_small 2 [1, 0, 1, 1, 0, 0] (by norm_num)) rfl
    (readLenencInt_cons_small 1 [0, 1, 1, 0, 0] (by norm_num))
    (readLenencInt_cons_small 0 [1, 1, 0, 0] (by norm_num)) rfl]
  rw [deserializeLoop_size_field _ _ _ _
    (readLenencInt_cons_small 1 [1, 0, 0] (by norm_num)) rfl
    (readLenencInt_cons_small 1 [0, 0] (by norm_num))
    (readLenencInt_cons_small 0 [0] (by norm_num))]
  rw [deserializeLoop_end_mark _ _ _ _
    (readLenencInt_cons_small 0 [] (by norm_num)) rfl]
  norm_num [initialOb, Except.map]

theorem c8_unknown_field_skipped_witness :
    deserializeLoop 11 initialOb false false
      (5 :: 2 :: ([9, 9] ++ [2, 1, 0, 1, 1, 0, 0])) =
      deserializeLoop 11 initialOb false false [2, 1, 0, 1, 1, 0, 0] :=
  c8_unknown_field_skipped.1 11 initialOb false false 5 2 [9, 9] [2, 1, 0, 1, 1, 0, 0]
    (by norm_num) (by norm_num) (by norm_num) rfl

/-- C6 amended: for a record whose declared `payload_size` equals the
payload length (with `u64`-representable sizes), serialize-then-parse
preserves `payload_size`, `algorithm` and the payload bytes; it
preserves `uncompressed_size` exactly when the algorithm is not `NONE`,
reparses it as 0 when the algorithm is `NONE` (the field is absent from
the bytes), and recomputes `header_size` as the encoded header
length. -/
theorem c6_roundtrip_preserves_fields (r : TransactionPayloadEvent)
    (hsz : r.payload_size = r.payload.length)
    (hpl : r.payload.length < 2 ^ 64)
    (hus : r.uncompressed_size < 2 ^ 64) :
    deserialize (serialize r) =
      .ok { payload_size := r.payload_size
            algorithm := r.algorithm
            uncompressed_size := if r.algorithm = .NONE then 0 else r.uncompressed_size
            payload := r.payload
            header_size := (serializeHeader r).length } := by
  obtain ⟨ps, alg, us, pl, hs⟩ := r
  simp only at hsz hpl hus ⊢
  subst hsz
  have pL : putLenencInt (lenenc_int_len pl.length) = [lenenc_int_len pl.length] :=
    putLenencInt_small (lenenc_int_len_lt pl.length)
  have pU : putLenencInt (lenenc_int_len us) = [lenenc_int_len us] :=
    putLenencInt_small (lenenc_int_len_lt us)
  have p0 : putLenencInt 0 = [0] := rfl
  have p1 : putLenencInt 1 = [1] := rfl
  have p2 : putLenencInt 2 = [2] := rfl
  have p3 : putLenencInt 3 = [3] := rfl
  have l0 : lenenc_int_len 0 = 1 := rfl
  have l1 : lenenc_int_len 1 = 1 := rfl
  cases alg with
  | NONE =>
    unfold deserialize deserializeAux
    simp [serialize, serializeHeader, fieldsCode, compressionTypeCode,
      p0, p1, p2, p3, pL, l0]
    rw [deserializeLoop_compression_field _ _ _ _
      (readLenencInt_cons_small 2
        (1 :: 0 :: 1 :: lenenc_int_len pl.length :: (putLenencInt pl.length ++ 0 :: pl))
        (by norm_num)) rfl
      (readLenencInt_cons_small 1
        (0 :: 1 :: lenenc_int_len pl.length :: (putLenencInt pl.length ++ 0 :: pl))
        (by norm_num))
      (readLenencInt_cons_small 0
        (1 :: lenenc_int_len pl.length :: (putLenencInt pl.length ++ 0 :: pl))
        (by norm_num)) rfl]
    rw [deserializeLoop_size_field _ _ _ _
      (readLenencInt_cons_small 1
        (lenenc_int_len pl.length :: (putLenencInt pl.length ++ 0 :: pl))
        (by norm_num)) rfl
      (readLenencInt_cons_small (lenenc_int_len pl.length)
        (putLenencInt pl.length ++ 0 :: pl) (lenenc_int_len_lt pl.length))
      (readLenencInt_putLenencInt hpl (0 :: pl))]
    rw [deserializeLoop_end_mark _ _ _ _
      (readLenencInt_cons_small 0 pl (by norm_num)) rfl]
    simp [Except.map, initialOb, List.take_length]
    omega
  | ZSTD =>
    unfold deserialize deserializeAux
    simp [serialize, serializeHeader, fieldsCode, compressionTypeCode,
      p0, p1, p2, p3, pL, pU, l1]
    rw [deserializeLoop_compression_field _ _ _ _
      (readLenencInt_cons_small 2
        (1 :: 1 :: 3 :: lenenc_int_len us ::
          (putLenencInt us ++
            1 :: lenenc_int_len pl.length :: (putLenencInt pl.length ++ 0 :: pl)))
        (by norm_num)) rfl
      (readLenencInt_cons_small 1
        (1 :: 3 :: lenenc_int_len us ::
          (putLenencInt us ++
            1 :: lenenc_int_len pl.length :: (putLenencInt pl.length ++ 0 :: pl)))
        (by norm_num))
      (readLenencInt_cons_small 1
        (3 :: lenenc_int_len us ::
          (putLenencInt us ++
            1 :: lenenc_int_len pl.length :: (putLenencInt pl.length ++ 0 :: pl)))
        (by norm_num)) rfl]
    rw [deserializeLoop_uncompressed_field _ _ _ _
      (readLenencInt_cons_small 3
        (lenenc_int_len us ::
          (putLenencInt us ++
            1 :: lenenc_int_len pl.length :: (putLenencInt pl.length ++ 0 :: pl)))
        (by norm_num)) rfl
      (readLenencInt_cons_small (lenenc_int_len us)
        (putLenencInt us ++
          1 :: lenenc_int_len pl.length :: (putLenencInt pl.length ++ 0 :: pl))
        (lenenc_int_len_lt us))
      (readLenencInt_putLenencInt hus
        (1 :: lenenc_int_len pl.length :: (putLenencInt pl.length ++ 0 :: pl)))]
    rw [deserializeLoop_size_field _ _ _ _
      (readLenencInt_cons_small 1
        (lenenc_int_len pl.length :: (putLenencInt pl.length ++ 0 :: pl))
        (by norm_num)) rfl
      (readLenencInt_cons_small (lenenc_int_len pl.length)
        (putLenencInt pl.length ++ 0 :: pl) (lenenc_int_len_lt pl.length))
      (readLenencInt_putLenencInt hpl (0 :: pl))]
    rw [deserializeLoop_end_mark _ _ _ _
      (readLenencInt_cons_small 0 pl (by norm_num)) rfl]
    simp [Except.map, initialOb, List.take_length]
    omega

/-- C6 counterexample: serialize-then-parse does not return an equal
record even for the simplest `algorithm = None` record built with `new`:
the reparsed record carries `header_size = 7` (the encoded header
length) where the original had `header_size = 0`. -/
theorem c6_roundtrip_counterexample :
    deserialize (serialize (TransactionPayloadEvent.new 0 .NONE 0 [])) ≠
      .ok (TransactionPayloadEvent.new 0 .NONE 0 []) := by
  have h : deserialize (serialize (TransactionPayloadEvent.new 0 .NONE 0 [])) =
      .ok { payload_size := 0
            algorithm := .NONE
            uncompressed_size := 0
            payload := []
            header_size := 7 } := by
    unfold deserialize deserializeAux
    show Except.map Prod.fst
      (deserializeLoop 7 initialOb false false [2, 1, 0, 1, 1, 0, 0]) = _
    rw [deserializeLoop_compression_field _ _ _ _
      (readLenencInt_cons_small 2 [1, 0, 1, 1, 0, 0] (by norm_num)) rfl
      (readLenencInt_cons_small 1 [0, 1, 1, 0, 0] (by norm_num))
      (readLenencInt_cons_small 0 [1, 1, 0, 0] (by norm_num)) rfl]
    rw [deserializeLoop_size_field _ _ _ _
      (readLenencInt_cons_small 1 [1, 0, 0] (by norm_num)) rfl
      (readLenencInt_cons_small 1 [0, 0] (by norm_num))
      (readLenencInt_cons_small 0 [0] (by norm_num))]
    rw [deserializeLoop_end_mark _ _ _ _
      (readLenencInt_cons_small 0 [] (by norm_num)) rfl]
    norm_num [initialOb, Except.map]
  rw [h]
  simp [TransactionPayloadEvent.new]

theorem c6_roundtrip_preserves_fields_witness :
    deserialize (serialize { payload_size := 2
                             algorithm := .ZSTD
                             uncompressed_size := 5
                             payload := [9, 9]
                             header_size := 0 }) =
      .ok { payload_size := 2
            algorithm := .ZSTD
            uncompressed_size := 5
            payload := [9, 9]
            header_size := 10 } :=
  c6_roundtrip_preserves_fields _ rfl (by norm_num) (by norm_num)

/-- C9: the encoded-length accessor equals the saturating sum of
`header_size` and the payload length, clamped to `u32::MAX` minus the
fixed binlog event-header length; on `Nat` the clamp absorbs the `usize`
saturation, so the value is the true (never wrapped) sum clamped. -/
theorem c9_len_saturating_clamped (r : TransactionPayloadEvent) :
    binlogStructLen r =
      min (satAddUsize r.header_size r.payload.length)
        (2 ^ 32 - 1 - BinlogEventHeader_LEN) ∧
    binlogStructLen r =
      min (r.header_size + r.payload.length) (2 ^ 32 - 1 - BinlogEventHeader_LEN) := by
  refine ⟨rfl, ?_⟩
  unfold binlogStructLen satAddUsize BinlogEventHeader_LEN
  omega

/-- C10: a record built through `new` followed by any sequence of
builder-style `with_*` mutations has `header_size = 0`, so its encoded
length is exactly the payload length clamped to the outer envelope's
maximum body size. -/
theorem c10_built_records_header_size_zero (payload_size : Nat)
    (algorithm : TransactionPayloadCompressionType) (uncompressed_size : Nat)
    (payload : List Nat) (muts : List BuilderMutation) :
    (buildRecord payload_size algorithm uncompressed_size payload muts).header_size = 0 ∧
    binlogStructLen (buildRecord payload_size algorithm uncompressed_size payload muts) =
      min (buildRecord payload_size algorithm uncompressed_size payload muts).payload.length
        (2 ^ 32 - 1 - BinlogEventHeader_LEN) := by
  have h : (buildRecord payload_size algorithm uncompressed_size payload muts).header_size
      = 0 :=
    foldl_applyMutation_header_size muts
      (TransactionPayloadEvent.new payload_size algorithm uncompressed_size payload)
  refine ⟨h, ?_⟩
  unfold binlogStructLen satAddUsize BinlogEventHeader_LEN
  rw [h]
  omega

end TxPayload
